import Mathlib

/-!
Shallow embedding of `src/monitor.py` (DPM-8600 serial monitor).

Conventions of the embedding:
* Python floats are modelled as rationals (`ℚ`); `math.trunc` is `ratTrunc`.
* A Python function that can raise inside the modelled fragment returns `Option`.
* Strings are Lean `String`s; `str.endswith` is `pyEndsWith` (suffix test),
  `str.strip()` is `pyStrip` (drop Python's whitespace set on both ends).
* The response regex of `DPM8600.__init__` is modelled by the deterministic
  recursive-descent parser `parseFrame` (greedy digit groups, an optional
  comma after each group, an optional single non-newline character before
  the terminator), which accepts the same frames and extracts the same
  `func_num`/last-`operand` groups.
-/

namespace Monitor

/-- Python `math.trunc` on a rational: round toward zero. -/
def ratTrunc (q : ℚ) : ℤ :=
  if 0 ≤ q then ⌊q⌋ else ⌈q⌉

/-- Python `%` on rationals with the sign convention of Python
(result has the sign of the divisor; here only used with positive divisor). -/
def qmod (x b : ℚ) : ℚ :=
  x - b * ⌊x / b⌋

/-- Values produced by `WriteFunction.convert` (a Python `int` or `str`). -/
inductive PyVal where
  | int (n : ℤ)
  | str (s : String)
  deriving DecidableEq, Repr

/-- Python `str(...)` applied to a converted operand (line 161 of the source). -/
def pyvalStr : PyVal → String
  | .int n => Int.repr n
  | .str s => s

/-- Values produced by `ReadFunction.convert` (a Python number, bool or str). -/
inductive PyData where
  | num (q : ℚ)
  | bool (b : Bool)
  | str (s : String)
  deriving DecidableEq, Repr

namespace DPM8600

/-- Line terminator `END = '\r\n'` of class `DPM8600`. -/
def END : String := "\r\n"

/-- The `WriteFunction` enum of class `DPM8600`. -/
inductive WriteFunction where
  | WRITE_VOLTAGE_LIMIT
  | WRITE_CURRENT_LIMIT
  | WRITE_OUTPUT_STATUS
  | WRITE_VOLTAGE_AND_CURRENT_LIMIT
  deriving DecidableEq, Repr

/-- Numeric function codes of `WriteFunction` (10, 11, 12, 20). -/
def WriteFunction.value : WriteFunction → ℕ
  | .WRITE_VOLTAGE_LIMIT => 10
  | .WRITE_CURRENT_LIMIT => 11
  | .WRITE_OUTPUT_STATUS => 12
  | .WRITE_VOLTAGE_AND_CURRENT_LIMIT => 20

/-- `WriteFunction.convert` (source lines 85-95).  The final branch of the
Python code compares against `self.READ_OUTPUT_TYPE`, a member that does not
exist on `WriteFunction` (it belongs to `ReadFunction`), so for
`WRITE_VOLTAGE_AND_CURRENT_LIMIT` the attribute lookup raises
`AttributeError`; that raise is modelled as `none`.
Truthiness of the `WRITE_OUTPUT_STATUS` argument is `≠ 0`. -/
def WriteFunction.convert : WriteFunction → ℚ → Option PyVal
  | .WRITE_VOLTAGE_LIMIT, v => some (.int (ratTrunc (v * 100)))
  | .WRITE_CURRENT_LIMIT, v => some (.int (ratTrunc (v * 1000)))
  | .WRITE_OUTPUT_STATUS, v => some (.str (if v ≠ 0 then "1" else "0"))
  | .WRITE_VOLTAGE_AND_CURRENT_LIMIT, _ => none

/-- The `ReadFunction` enum of class `DPM8600`. -/
inductive ReadFunction where
  | READ_MAX_OUTPUT_VOLTAGE
  | READ_MAX_OUTPUT_CURRENT
  | READ_VOLTAGE_SETTING
  | READ_CURRENT_SETTING
  | READ_OUTPUT_STATUS
  | READ_OUTPUT_VOLTAGE
  | READ_OUTPUT_CURRENT
  | READ_OUTPUT_TYPE
  | READ_TEMPERATURE
  deriving DecidableEq, Repr

/-- Numeric function codes of `ReadFunction` (0, 1, 10, 11, 12, 30, 31, 32, 33). -/
def ReadFunction.value : ReadFunction → ℕ
  | .READ_MAX_OUTPUT_VOLTAGE => 0
  | .READ_MAX_OUTPUT_CURRENT => 1
  | .READ_VOLTAGE_SETTING => 10
  | .READ_CURRENT_SETTING => 11
  | .READ_OUTPUT_STATUS => 12
  | .READ_OUTPUT_VOLTAGE => 30
  | .READ_OUTPUT_CURRENT => 31
  | .READ_OUTPUT_TYPE => 32
  | .READ_TEMPERATURE => 33

/-- `ReadFunction.convert` (source lines 109-119): the operand is the parsed
integer; voltage-scaled codes divide by 100, current-scaled by 1000,
temperature is returned unchanged, output status becomes a bool, output type
maps 0 to CV and anything else to CC. -/
def ReadFunction.convert : ReadFunction → ℤ → PyData
  | .READ_OUTPUT_STATUS, n => .bool (n ≠ 0)
  | .READ_MAX_OUTPUT_VOLTAGE, n => .num ((n : ℚ) / 100)
  | .READ_VOLTAGE_SETTING, n => .num ((n : ℚ) / 100)
  | .READ_OUTPUT_VOLTAGE, n => .num ((n : ℚ) / 100)
  | .READ_MAX_OUTPUT_CURRENT, n => .num ((n : ℚ) / 1000)
  | .READ_CURRENT_SETTING, n => .num ((n : ℚ) / 1000)
  | .READ_OUTPUT_CURRENT, n => .num ((n : ℚ) / 1000)
  | .READ_TEMPERATURE, n => .num (n : ℚ)
  | .READ_OUTPUT_TYPE, n => .str (if n = 0 then "CV" else "CC")

/-- A command sent to `_send`/`_read`: either a read or a write function. -/
inductive Command where
  | read (rf : ReadFunction)
  | write (wf : WriteFunction)
  deriving DecidableEq, Repr

/-- `cmd.value` of a command. -/
def Command.value : Command → ℕ
  | .read rf => rf.value
  | .write wf => wf.value

/-- Python `f"{n:02}"`: decimal representation, left-padded with zeros to
width at least 2. -/
def pyFormat02 (n : ℕ) : String :=
  let s := Nat.repr n
  if 2 ≤ s.length then s else String.mk (List.replicate (2 - s.length) '0') ++ s

/-- Python `",".join(strs)`. -/
def joinComma : List String → String
  | [] => ""
  | [s] => s
  | s :: rest => s ++ ("," ++ joinComma rest)

/-- Number of comma characters in a string. -/
def commaCount (s : String) : ℕ :=
  s.data.count ','

/-- Python `str.endswith(p)`: suffix test. -/
def pyEndsWith (s p : String) : Bool :=
  p.data.isSuffixOf s.data

/-- The raw command line built by `_send` (source line 164):
`START + {address:02} + func + {value:02} + "=" + ",".join(operands) + "," + END`. -/
def encodeFrame (addr : ℕ) (dir : Char) (code : ℕ) (ops : List String) : String :=
  ":" ++ pyFormat02 addr ++ String.mk [dir] ++ pyFormat02 code ++ "=" ++
    joinComma ops ++ "," ++ END

/-- The list comprehension `[cmd.convert(o) for o in operands]` of `_send`
(source line 154); a raised exception in any `convert` propagates (`none`). -/
def convertAll (wf : WriteFunction) : List ℚ → Option (List PyVal)
  | [] => some []
  | q :: qs =>
    match wf.convert q, convertAll wf qs with
    | some v, some vs => some (v :: vs)
    | _, _ => none

/-- `_send` with a `ReadFunction`: operands are passed through unconverted
(callers always pass integers; the default is `[0]`), the direction letter is
`r`. -/
def sendRead (addr : ℕ) (rf : ReadFunction) (ops : List ℤ) : String :=
  encodeFrame addr 'r' rf.value (ops.map Int.repr)

/-- `_send` with a `WriteFunction`: operands are first mapped through
`WriteFunction.convert` (which can raise), then stringified; the direction
letter is `w`. -/
def sendWrite (addr : ℕ) (wf : WriteFunction) (ops : List ℚ) : Option String :=
  (convertAll wf ops).map (fun l => encodeFrame addr 'w' wf.value (l.map pyvalStr))

/-- `DPM8600.set_max_voltage_and_current` (source lines 233-234): a single
`_send` of `WRITE_VOLTAGE_AND_CURRENT_LIMIT` with operands `[v, a]` and no
`_read` afterwards. -/
def setMaxVoltageAndCurrent (addr : ℕ) (v a : ℚ) : Option String :=
  sendWrite addr .WRITE_VOLTAGE_AND_CURRENT_LIMIT [v, a]

end DPM8600

namespace DPM8600

/-- Python's whitespace set for `str.strip()` (ASCII part). -/
def isPySpace (c : Char) : Bool :=
  c = ' ' ∨ c = '\t' ∨ c = '\n' ∨ c = '\r' ∨ c = '\x0b' ∨ c = '\x0c'

/-- Python `str.strip()`: drop whitespace from both ends. -/
def pyStrip (s : String) : String :=
  String.mk (((s.data.dropWhile isPySpace).reverse.dropWhile isPySpace).reverse)

/-- Longest digit prefix of a character list, with the remainder
(models a greedy regex group of consecutive digits). -/
def takeDigits : List Char → List Char × List Char
  | [] => ([], [])
  | c :: cs =>
    if c.isDigit then
      let p := takeDigits cs
      (c :: p.1, p.2)
    else ([], c :: cs)

/-- Python `int(...)` on a nonempty digit string. -/
def digitsToNat (ds : List Char) : ℕ :=
  ds.foldl (fun n c => 10 * n + (c.toNat - 48)) 0

/-- The repeated group `((?P<operand>\d+),?)+` of the response regex: greedily
consume digit groups, each followed by an optional comma; the returned number
is the capture of the last repetition (Python keeps the last match of a
repeated group).  `fuel` bounds the recursion; callers pass the input length,
which suffices since every iteration consumes at least one character. -/
def parseOperandsAux : ℕ → ℕ → List Char → ℕ × List Char
  | 0, last, s => (last, s)
  | fuel + 1, last, s =>
    let p := takeDigits s
    if p.1.isEmpty then (last, s)
    else
      let r :=
        match p.2 with
        | ',' :: t => t
        | r => r
      parseOperandsAux fuel (digitsToNat p.1) r

/-- The tail `.?\r\n` of the response regex at the current position: either the
terminator directly, or one character other than a newline and then the
terminator; `re.match` allows arbitrary input after the matched prefix. -/
def parseTail : List Char → Bool
  | '\r' :: '\n' :: _ => true
  | c :: '\r' :: '\n' :: _ => c ≠ '\n'
  | _ => false

/-- The response regex
`:(?P<addr>\d+)(?P<func>[wr])(?P<func_num>\d+)=((?P<operand>\d+),?)+.?\r\n`
compiled in `DPM8600.__init__` and applied with `re.match`, as a deterministic
parser.  Returns the captured address, direction character, function number
and (last) operand. -/
def parseFrame (s : List Char) : Option (ℕ × Char × ℕ × ℕ) :=
  match s with
  | ':' :: r0 =>
    let pa := takeDigits r0
    if pa.1.isEmpty then none
    else
      match pa.2 with
      | c :: r2 =>
        if c = 'w' ∨ c = 'r' then
          let pf := takeDigits r2
          if pf.1.isEmpty then none
          else
            match pf.2 with
            | '=' :: r4 =>
              if (takeDigits r4).1.isEmpty then none
              else
                let po := parseOperandsAux r4.length 0 r4
                if parseTail po.2 then
                  some (digitsToNat pa.1, c, digitsToNat pf.1, po.1)
                else none
            | _ => none
        else none
      | [] => none
  | _ => none

/-- Outcome of one `_read` call, given the already-received line
(source lines 191-216).  `noData` is the early return on an empty read;
`timeout`, `malformed` and `mismatch` are the three error paths that print and
return `None`; `ack` is the `":01ok"` sentinel (`True`); `value` is a decoded
data frame. -/
inductive ReadOutcome where
  | noData
  | timeout
  | ack
  | malformed
  | mismatch (got : ℕ)
  | value (v : Option PyData)
  deriving DecidableEq, Repr

/-- The conversion applied to the parsed operand in `_read`
(`cmd.convert(int(m.group("operand")))`), for either command direction. -/
def Command.convertData : Command → ℤ → Option PyData
  | .read rf, n => some (rf.convert n)
  | .write wf, n => (wf.convert (n : ℚ)).map fun pv =>
      match pv with
      | .int k => .num (k : ℚ)
      | .str s => .str s

/-- The decode part of `_read` (source lines 191-216) applied to the received
line `ret`; the second component records whether `_clearInput` was called. -/
def pyRead (cmd : Command) (ret : String) : ReadOutcome × Bool :=
  if ret.length = 0 then (.noData, false)
  else if pyEndsWith ret END = false then (.timeout, true)
  else if pyStrip ret = ":01ok" then (.ack, false)
  else
    match parseFrame ret.data with
    | none => (.malformed, true)
    | some (_, _, f, op) =>
      if f ≠ cmd.value then (.mismatch f, true)
      else (.value (cmd.convertData (op : ℤ)), false)

end DPM8600

/-- `TOLERANCE_WATT = 1` (source line 69). -/
def toleranceWatt : ℚ := 1

/-- One polled snapshot, as obtained by the six `dev.get_*` calls at the top
of the loop body (source lines 359-365); a failed read is `none`. -/
structure Reading where
  v : Option ℚ
  a : Option ℚ
  outOn : Bool
  typ : String
  vLim : Option ℚ
  aLim : Option ℚ

/-- The mutable loop variables of the `while True` session loop
(source lines 321-328, 352-357): the monotonic timestamp taken at the top of
the current iteration, the two energy accumulators, the running sums, the
sample counter, and the pending current-limit override `a_limit`. -/
structure LoopState where
  nowMono : ℚ
  whSum : ℚ
  whGross : ℚ
  vSum : ℚ
  aSum : ℚ
  statCount : ℕ
  aLimit : Option ℚ

/-- The record emitted to the CSV writer / console / MQTT for one cycle
(source lines 385-410), restricted to the numeric and state fields. -/
structure Record where
  v : ℚ
  a : ℚ
  w : ℚ
  wh : ℚ
  whSum : ℚ
  vLim : Option ℚ
  aLim : Option ℚ
  maxWatt : ℚ
  outOn : Bool
  typ : String

/-- Everything one loop iteration does after the reads: the updated state, the
record given to the external sinks (`none` when the cycle was skipped or died
before emitting), the current limit written via `set_current_limit` (`none`
when no write happened), the duration passed to `time.sleep` (`none` when the
iteration skipped the sleep via `continue` or died first), and whether an
uncaught exception terminated the process mid-iteration (the loop body has no
exception handler, so a raise ends the session). -/
structure CycleResult where
  st : LoopState
  emitted : Option Record
  writtenLimit : Option ℚ
  slept : Option ℚ
  raised : Bool

/-- Python truthiness of the `a_limit` variable (`if a_limit:`): false for
`None` and for `0.0`. -/
def truthy : Option ℚ → Bool
  | none => false
  | some q => q ≠ 0

/-- One iteration of the `while True` loop (source lines 352-430), starting
after the timestamps were taken (`tNow` is the fresh `time.monotonic()`) and
the six reads returned `r`.  Mirrors, in order: the `continue` on a failed
voltage/current read, power and interval energy, the statistics block, the
console/CSV/MQTT emission, the two control-step checks, the conditional
`set_current_limit`, and the drift-corrected sleep.  Two uncaught raises of
the loop body are modelled (`raised := true`): the line-385 f-string formats
`v_lim` with `:.2f` and `a_lim` with `:.3f`, which raises `TypeError` when
either limit read failed (`None` has no float format), killing the process
after the statistics but before the emission and the control step; and the
control step's `max_watt / v` raises `ZeroDivisionError` when a staging
branch fires with `v = 0`, killing the process after the emission but before
any limit is staged or written. -/
def cycle (maxWatt startMono delay : ℚ) (r : Reading) (tNow : ℚ)
    (st : LoopState) : CycleResult :=
  match r.v, r.a with
  | some v, some a =>
    let w := v * a
    let timespan := tNow - st.nowMono
    let wh := w * timespan / 3600
    let whSum := st.whSum + wh
    let fullT := tNow - startMono
    let statCount := st.statCount + 1
    let stats :=
      if 0 < v ∧ 0 < a then
        let vS := st.vSum + v
        let aS := st.aSum + a
        (vS, aS, vS / statCount * (aS / statCount) * fullT / 3600)
      else (st.vSum, st.aSum, st.whGross)
    let stBase : LoopState :=
      { nowMono := tNow, whSum := whSum, whGross := stats.2.2, vSum := stats.1,
        aSum := stats.2.1, statCount := statCount, aLimit := st.aLimit }
    if r.vLim = none ∨ r.aLim = none then
      { st := stBase, emitted := none, writtenLimit := none, slept := none,
        raised := true }
    else
      let emitRec : Record :=
        { v := v, a := a, w := w, wh := wh, whSum := whSum, vLim := r.vLim,
          aLim := r.aLim, maxWatt := maxWatt, outOn := r.outOn, typ := r.typ }
      if v = 0 ∧ ((maxWatt + toleranceWatt < w ∧ r.outOn) ∨
          (w < maxWatt - toleranceWatt ∧ r.typ = "CC" ∧ r.outOn)) then
        { st := stBase, emitted := some emitRec, writtenLimit := none,
          slept := none, raised := true }
      else
        let aL1 :=
          if maxWatt + toleranceWatt < w ∧ r.outOn then some (maxWatt / v) else st.aLimit
        let aL2 :=
          if w < maxWatt - toleranceWatt ∧ r.typ = "CC" ∧ r.outOn then some (maxWatt / v)
          else aL1
        let act : Option ℚ × Option ℚ := if truthy aL2 then (aL2, none) else (none, aL2)
        { st := { stBase with aLimit := act.2 },
          emitted := some emitRec,
          writtenLimit := act.1,
          slept := some (delay - qmod fullT delay),
          raised := false }
  | _, _ =>
    { st := { st with nowMono := tNow }, emitted := none, writtenLimit := none,
      slept := none, raised := false }

/-- Start time of cycle `n` on the monotonic clock with `start_time_monotonic`
at 0, assuming `time.sleep` sleeps exactly its argument and that everything in
an iteration other than the polled work takes no time; `works n` is the
duration of cycle `n`'s work (reads, statistics, emission, control writes).
Cycle 0 begins after the initial `time.sleep(delay_seconds)` (source line
350); each later cycle begins after the previous cycle's work and its
drift-corrected sleep `delay - ((now_monotonic - start) % delay)` computed
from the timestamp taken at the top of that iteration (source lines 425-427). -/
def cycleStart (delay : ℚ) (works : ℕ → ℚ) : ℕ → ℚ
  | 0 => delay
  | n + 1 =>
    cycleStart delay works n + works n +
      (delay - qmod (cycleStart delay works n) delay)

/-- The argument of the `time.sleep` call ending cycle `n`. -/
def sleepOfCycle (delay : ℚ) (works : ℕ → ℚ) (n : ℕ) : ℚ :=
  delay - qmod (cycleStart delay works n) delay

end Monitor

namespace Monitor

namespace DPM8600

lemma digitChar_ne_comma (n : ℕ) : Nat.digitChar n ≠ ',' := by
  match n with
  | 0 => decide
  | 1 => decide
  | 2 => decide
  | 3 => decide
  | 4 => decide
  | 5 => decide
  | 6 => decide
  | 7 => decide
  | 8 => decide
  | 9 => decide
  | 10 => decide
  | 11 => decide
  | 12 => decide
  | 13 => decide
  | 14 => decide
  | 15 => decide
  | n + 16 => simp [Nat.digitChar]

lemma toDigitsCore_ne_comma (b : ℕ) :
    ∀ (fuel n : ℕ) (ds : List Char), (∀ c ∈ ds, c ≠ ',') →
      ∀ c ∈ Nat.toDigitsCore b fuel n ds, c ≠ ',' := by
  intro fuel
  induction fuel with
  | zero => intro n ds h; simpa [Nat.toDigitsCore] using h
  | succ fuel ih =>
    intro n ds h
    simp only [Nat.toDigitsCore]
    have hcons : ∀ c ∈ Nat.digitChar (n % b) :: ds, c ≠ ',' := by
      intro c hc
      rcases List.mem_cons.mp hc with h1 | h2
      · exact h1 ▸ digitChar_ne_comma _
      · exact h c h2
    split
    · exact hcons
    · exact ih _ _ hcons

lemma natRepr_comma_free (n : ℕ) : commaCount (Nat.repr n) = 0 := by
  have h : ∀ c ∈ (Nat.repr n).data, c ≠ ',' := by
    show ∀ c ∈ (Nat.toDigits 10 n).asString.data, c ≠ ','
    simpa [List.asString, Nat.toDigits] using
      toDigitsCore_ne_comma 10 (n + 1) n [] (by simp)
  simpa [commaCount, List.count_eq_zero] using fun hmem => h ',' hmem rfl

lemma intRepr_comma_free (n : ℤ) : commaCount (Int.repr n) = 0 := by
  cases n with
  | ofNat m => simpa [Int.repr] using natRepr_comma_free m
  | negSucc m =>
    have h2 := natRepr_comma_free (m + 1)
    simp only [Int.repr, commaCount, String.data_append, List.count_append] at *
    simp [h2]

lemma commaCount_append (s t : String) :
    commaCount (s ++ t) = commaCount s + commaCount t := by
  simp [commaCount, String.data_append, List.count_append]

lemma commaCount_joinComma :
    ∀ l : List String, l ≠ [] → (∀ s ∈ l, commaCount s = 0) →
      commaCount (joinComma l) = l.length - 1
  | [], h, _ => absurd rfl h
  | [s], _, h => by simpa [joinComma] using h s (by simp)
  | s :: t :: rest, _, h => by
    have ht : commaCount (joinComma (t :: rest)) = (t :: rest).length - 1 :=
      commaCount_joinComma (t :: rest) (by simp) (fun x hx => h x (by simp [hx]))
    have hs : commaCount s = 0 := h s (by simp)
    have hcomma : commaCount "," = 1 := by decide
    simp only [joinComma, commaCount_append, hs, hcomma, ht, List.length_cons]
    omega

lemma pyFormat02_two_digit :
    ∀ n < 100, (pyFormat02 n).length = 2 ∧ commaCount (pyFormat02 n) = 0 := by
  decide

lemma pyEndsWith_append (s t : String) : pyEndsWith (s ++ t) t = true := by
  simp [pyEndsWith, String.data_append, List.isSuffixOf_iff_suffix, List.suffix_append]

lemma readValue_lt_100 (rf : ReadFunction) : rf.value < 100 := by
  cases rf <;> decide

lemma writeValue_lt_100 (wf : WriteFunction) : wf.value < 100 := by
  cases wf <;> decide

lemma commaCount_singleton (c : Char) (h : c ≠ ',') :
    commaCount (String.mk [c]) = 0 := by
  simp [commaCount, List.count_cons, h]

lemma commaCount_encodeFrame (addr code : ℕ) (dir : Char) (ops : List String)
    (haddr : addr < 100) (hcode : code < 100) (hne : ops ≠ [])
    (hops : ∀ s ∈ ops, commaCount s = 0) (hdir : dir ≠ ',') :
    commaCount (encodeFrame addr dir code ops) = ops.length := by
  have hlen : 1 ≤ ops.length := List.length_pos.mpr hne
  unfold encodeFrame
  simp only [commaCount_append]
  rw [commaCount_joinComma ops hne hops,
    (pyFormat02_two_digit addr haddr).2, (pyFormat02_two_digit code hcode).2,
    commaCount_singleton dir hdir]
  have hcolon : commaCount ":" = 0 := by decide
  have heq : commaCount "=" = 0 := by decide
  have hc : commaCount "," = 1 := by decide
  have hend : commaCount END = 0 := by decide
  rw [hcolon, heq, hc, hend]
  omega

lemma endsWith_encodeFrame (addr code : ℕ) (dir : Char) (ops : List String) :
    pyEndsWith (encodeFrame addr dir code ops) END = true :=
  pyEndsWith_append _ END

lemma convert_comma_free (wf : WriteFunction) (q : ℚ) (pv : PyVal)
    (h : wf.convert q = some pv) : commaCount (pyvalStr pv) = 0 := by
  cases wf with
  | WRITE_VOLTAGE_LIMIT =>
    simp only [WriteFunction.convert, Option.some.injEq] at h
    subst h
    exact intRepr_comma_free _
  | WRITE_CURRENT_LIMIT =>
    simp only [WriteFunction.convert, Option.some.injEq] at h
    subst h
    exact intRepr_comma_free _
  | WRITE_OUTPUT_STATUS =>
    simp only [WriteFunction.convert, Option.some.injEq] at h
    subst h
    by_cases hq : q ≠ 0 <;> simp [pyvalStr, hq] <;> decide
  | WRITE_VOLTAGE_AND_CURRENT_LIMIT =>
    simp [WriteFunction.convert] at h

lemma convertAll_comma_free (wf : WriteFunction) :
    ∀ (ops : List ℚ) (l : List PyVal), convertAll wf ops = some l →
      ∀ s ∈ l.map pyvalStr, commaCount s = 0
  | [], l, h => by
    simp only [convertAll, Option.some.injEq] at h
    subst h
    simp
  | q :: qs, l, h => by
    cases hcv : wf.convert q with
    | none => simp [convertAll, hcv] at h
    | some v =>
      cases hca : convertAll wf qs with
      | none => simp [convertAll, hcv, hca] at h
      | some vs =>
        simp only [convertAll, hcv, hca, Option.some.injEq] at h
        subst h
        intro s hs
        rcases List.mem_map.mp hs with ⟨pv, hpv, rfl⟩
        rcases List.mem_cons.mp hpv with rfl | hmem
        · exact convert_comma_free wf q pv hcv
        · exact convertAll_comma_free wf qs vs hca _ (List.mem_map_of_mem _ hmem)

lemma convertAll_length (wf : WriteFunction) :
    ∀ (ops : List ℚ) (l : List PyVal), convertAll wf ops = some l →
      l.length = ops.length
  | [], l, h => by
    simp only [convertAll, Option.some.injEq] at h
    subst h
    rfl
  | q :: qs, l, h => by
    cases hcv : wf.convert q with
    | none => simp [convertAll, hcv] at h
    | some v =>
      cases hca : convertAll wf qs with
      | none => simp [convertAll, hcv, hca] at h
      | some vs =>
        simp only [convertAll, hcv, hca, Option.some.injEq] at h
        subst h
        simp [convertAll_length wf qs vs hca]

/-- C3: for every voltage `v ≥ 0`, the write-side scaling (truncating
multiplication by 100, `WriteFunction.convert` of `WRITE_VOLTAGE_LIMIT`)
followed by the read-side inverse (division by 100, `ReadFunction.convert` of
a voltage-scaled code) yields a value within 1/100 of `v`; likewise for every
current `a ≥ 0` with scale factor 1000, the round trip is within 1/1000. -/
theorem claim_C3_roundtrip (v a : ℚ) (hv : 0 ≤ v) (ha : 0 ≤ a) :
    ∃ nv na : ℤ,
      WriteFunction.convert .WRITE_VOLTAGE_LIMIT v = some (.int nv) ∧
      ReadFunction.convert .READ_VOLTAGE_SETTING nv = .num ((nv : ℚ) / 100) ∧
      0 ≤ v - (nv : ℚ) / 100 ∧ v - (nv : ℚ) / 100 < 1 / 100 ∧
      WriteFunction.convert .WRITE_CURRENT_LIMIT a = some (.int na) ∧
      ReadFunction.convert .READ_CURRENT_SETTING na = .num ((na : ℚ) / 1000) ∧
      0 ≤ a - (na : ℚ) / 1000 ∧ a - (na : ℚ) / 1000 < 1 / 1000 := by
  have hv100 : (0 : ℚ) ≤ v * 100 := by positivity
  have ha1000 : (0 : ℚ) ≤ a * 1000 := by positivity
  refine ⟨⌊v * 100⌋, ⌊a * 1000⌋, ?_, rfl, ?_, ?_, ?_, rfl, ?_, ?_⟩
  · simp [WriteFunction.convert, ratTrunc, hv100]
  · have h1 : ((⌊v * 100⌋ : ℚ)) ≤ v * 100 := Int.floor_le _
    linarith
  · have h2 : v * 100 < ⌊v * 100⌋ + 1 := Int.lt_floor_add_one _
    linarith
  · simp [WriteFunction.convert, ratTrunc, ha1000]
  · have h1 : ((⌊a * 1000⌋ : ℚ)) ≤ a * 1000 := Int.floor_le _
    linarith
  · have h2 : a * 1000 < ⌊a * 1000⌋ + 1 := Int.lt_floor_add_one _
    linarith

/-- Witness for C3 at `v = 1/3`, `a = 1/7`. -/
theorem claim_C3_witness :
    ∃ nv na : ℤ,
      WriteFunction.convert .WRITE_VOLTAGE_LIMIT (1 / 3) = some (.int nv) ∧
      ReadFunction.convert .READ_VOLTAGE_SETTING nv = .num ((nv : ℚ) / 100) ∧
      0 ≤ 1 / 3 - (nv : ℚ) / 100 ∧ 1 / 3 - (nv : ℚ) / 100 < 1 / 100 ∧
      WriteFunction.convert .WRITE_CURRENT_LIMIT (1 / 7) = some (.int na) ∧
      ReadFunction.convert .READ_CURRENT_SETTING na = .num ((na : ℚ) / 1000) ∧
      0 ≤ 1 / 7 - (na : ℚ) / 1000 ∧ 1 / 7 - (na : ℚ) / 1000 < 1 / 1000 :=
  claim_C3_roundtrip (1 / 3) (1 / 7) (by norm_num) (by norm_num)

/-- C7: decoding the exact line `":01ok\r\n"` yields the boolean success
sentinel `True` (`.ack`), for every expected command (in particular write
commands), with no buffer drain; the sentinel check precedes frame parsing
and the mismatch check — indeed the line matches no frame at all
(`parseFrame` rejects it), yet the result is the sentinel, not `malformed`
and not `mismatch`. -/
theorem claim_C7_ack_sentinel :
    parseFrame (":01ok\r\n".data) = none ∧
    ∀ cmd : Command, pyRead cmd ":01ok\r\n" = (.ack, false) :=
  ⟨rfl, fun _ => rfl⟩

/-- C9: `set_max_voltage_and_current` never sends a frame: converting the
operands raises `AttributeError` (the `WriteFunction.convert` chain compares
against `self.READ_OUTPUT_TYPE`, which is not a member of `WriteFunction`),
so the claimed single write frame with function code 20 and scaled operands
is never produced.  Evaluated here at the failing input `v = 14.5`, `a = 3`,
and in general for every address and operand pair. -/
theorem claim_C9_no_frame :
    setMaxVoltageAndCurrent 1 (29 / 2) 3 = none ∧
    ∀ (addr : ℕ) (v a : ℚ), setMaxVoltageAndCurrent addr v a = none :=
  ⟨rfl, fun _ _ _ => rfl⟩

/-- C5 counterexample: the empty read (zero bytes, which also lacks the CRLF
terminator) returns from `_read` before the terminator check, so the input
buffer is NOT drained there, contradicting the claim that every line lacking
the terminator triggers a drain. -/
theorem claim_C5_counterexample :
    pyEndsWith "" END = false ∧
    pyRead (.read .READ_OUTPUT_VOLTAGE) "" = (.noData, false) :=
  ⟨rfl, rfl⟩

/-- C5 (amended): for every NONEMPTY received line that does not end with the
CRLF terminator, `_read` takes the Timeout branch (never Malformed), drains
the input buffer, and forwards no decoded value; an empty read also forwards
no value but returns without draining. -/
theorem claim_C5_timeout (cmd : Command) (ret : String) (hne : ret ≠ "")
    (hend : pyEndsWith ret END = false) :
    pyRead cmd ret = (.timeout, true) := by
  have hlen : ret.length ≠ 0 := by
    intro h0
    apply hne
    cases ret with
    | mk l =>
      simp only [String.length] at h0
      have hl : l = [] := List.length_eq_zero.mp h0
      subst hl
      rfl
  simp [pyRead, hlen, hend]

/-- Witness for C5 at the truncated line `":01r30=12"`. -/
theorem claim_C5_witness :
    pyRead (.read .READ_OUTPUT_VOLTAGE) ":01r30=12" = (.timeout, true) :=
  claim_C5_timeout (.read .READ_OUTPUT_VOLTAGE) ":01r30=12" (by decide) (by decide)

/-- C6: every received line that ends with the terminator, is not the ack
sentinel, and parses as a frame whose function code differs from the function
code of the command that was sent is rejected as a Mismatch, the input buffer
is drained, and no decoded value is returned. -/
theorem claim_C6_mismatch (cmd : Command) (ret : String) (addr op : ℕ)
    (c : Char) (f : ℕ) (hlen : ret.length ≠ 0)
    (hend : pyEndsWith ret END = true) (hok : pyStrip ret ≠ ":01ok")
    (hparse : parseFrame ret.data = some (addr, c, f, op))
    (hf : f ≠ cmd.value) :
    pyRead cmd ret = (.mismatch f, true) := by
  simp [pyRead, hlen, hend, hok, hparse, hf]

/-- Witness for C6: a voltage response (function code 30) received while a
current-setting read (function code 11) was expected. -/
theorem claim_C6_witness :
    pyRead (.read .READ_CURRENT_SETTING) ":01r30=1234,\r\n" = (.mismatch 30, true) :=
  claim_C6_mismatch (.read .READ_CURRENT_SETTING) ":01r30=1234,\r\n" 1 1234 'r' 30
    (by decide) (by decide) (by decide) (by decide) (by decide)

end DPM8600

/-- C1: on a cycle whose six reads all succeeded (in particular the
voltage-limit and current-limit reads, without which line 385's f-string
raises `TypeError` and the control step is never reached), whenever the
output is on and either power exceeds the target plus the 1 W tolerance, or
regulation is constant-current and power is below the target minus the
tolerance, the control step stages `maxWatt / v`, the staged limit is then
written via `set_current_limit` and cleared, and no exception is raised.  The
hypotheses `0 < v` and `0 < maxWatt` reflect the loop's operating range (the
division by `v` exists and the staged float is truthy; `max_watt` is clamped
to `[5, 300]`). -/
theorem claim_C1_control (maxWatt startMono delay v a tNow vl al : ℚ)
    (typ : String) (st : LoopState) (hv : 0 < v) (hm : 0 < maxWatt)
    (hcond : maxWatt + toleranceWatt < v * a ∨
      (v * a < maxWatt - toleranceWatt ∧ typ = "CC")) :
    (cycle maxWatt startMono delay ⟨some v, some a, true, typ, some vl, some al⟩
        tNow st).writtenLimit = some (maxWatt / v) ∧
    (cycle maxWatt startMono delay ⟨some v, some a, true, typ, some vl, some al⟩
        tNow st).st.aLimit = none ∧
    (cycle maxWatt startMono delay ⟨some v, some a, true, typ, some vl, some al⟩
        tNow st).raised = false := by
  have htr : truthy (some (maxWatt / v)) = true := by
    simp [truthy]
    exact ⟨ne_of_gt hm, ne_of_gt hv⟩
  have hv0 : ¬ v = 0 := ne_of_gt hv
  rcases hcond with h1 | ⟨h2, hcc⟩
  · have hn2 : ¬(v * a < maxWatt - toleranceWatt ∧ typ = "CC" ∧ True) := by
      rintro ⟨hlt, -, -⟩
      rw [toleranceWatt] at h1 hlt
      linarith
    simp [cycle, h1, hn2, htr, hv0]
  · simp [cycle, h2, hcc, htr, hv0]

/-- Witness for C1 at the spec's scenario: target 50 W, `V = 14`, `A = 4`
(56 W), output on, limit reads succeeded: the written (and then cleared)
limit is `50 / 14`. -/
theorem claim_C1_witness :
    (cycle 50 0 1 ⟨some 14, some 4, true, "CV", some (29 / 2), some (7 / 2)⟩ 1
        ⟨0, 0, 0, 0, 0, 0, none⟩).writtenLimit = some (50 / 14) ∧
    (cycle 50 0 1 ⟨some 14, some 4, true, "CV", some (29 / 2), some (7 / 2)⟩ 1
        ⟨0, 0, 0, 0, 0, 0, none⟩).st.aLimit = none ∧
    (cycle 50 0 1 ⟨some 14, some 4, true, "CV", some (29 / 2), some (7 / 2)⟩ 1
        ⟨0, 0, 0, 0, 0, 0, none⟩).raised = false :=
  claim_C1_control 50 0 1 14 4 1 (29 / 2) (7 / 2) "CV" ⟨0, 0, 0, 0, 0, 0, none⟩
    (by norm_num) (by norm_num) (Or.inl (by rw [toleranceWatt]; norm_num))

/-- C2 counterexample: on a cycle whose reading has `v = 0` (output off), the
sample counter is still incremented (`stat_count += 1` runs before the
`if v > 0 and a > 0` guard, commented "also count idle for gross
performance"), so the counter is NOT incremented only on strictly positive
samples. -/
theorem claim_C2_counterexample :
    (cycle 50 0 1 ⟨some 0, some 2, false, "CV", some 15, some 5⟩ 1
        ⟨0, 0, 0, 0, 0, 0, none⟩).st.statCount = 0 + 1 ∧
    ¬ ((0 : ℚ) > 0 ∧ (2 : ℚ) > 0) := by
  constructor
  · norm_num [cycle]
    split_ifs <;> rfl
  · simp

/-- C2 (amended): the sample counter is incremented on every cycle with a
successful reading, including those with zero voltage or current; only the
running voltage/current sums and the gross (mean-based) energy are updated
when both are strictly positive — so zero samples enter the divisor of the
mean while the interval-sum energy still accrues their (near-zero)
contribution. -/
theorem claim_C2_statcount (maxWatt startMono delay v a tNow : ℚ)
    (outOn : Bool) (typ : String) (vl al : Option ℚ) (st : LoopState) :
    (cycle maxWatt startMono delay ⟨some v, some a, outOn, typ, vl, al⟩ tNow
        st).st.statCount = st.statCount + 1 ∧
    (¬(0 < v ∧ 0 < a) →
      (cycle maxWatt startMono delay ⟨some v, some a, outOn, typ, vl, al⟩ tNow
          st).st.vSum = st.vSum ∧
      (cycle maxWatt startMono delay ⟨some v, some a, outOn, typ, vl, al⟩ tNow
          st).st.aSum = st.aSum ∧
      (cycle maxWatt startMono delay ⟨some v, some a, outOn, typ, vl, al⟩ tNow
          st).st.whGross = st.whGross) ∧
    ((0 < v ∧ 0 < a) →
      (cycle maxWatt startMono delay ⟨some v, some a, outOn, typ, vl, al⟩ tNow
          st).st.vSum = st.vSum + v ∧
      (cycle maxWatt startMono delay ⟨some v, some a, outOn, typ, vl, al⟩ tNow
          st).st.aSum = st.aSum + a ∧
      (cycle maxWatt startMono delay ⟨some v, some a, outOn, typ, vl, al⟩ tNow
          st).st.whGross = (st.vSum + v) / ((st.statCount : ℚ) + 1) *
            ((st.aSum + a) / ((st.statCount : ℚ) + 1)) * (tNow - startMono) / 3600) ∧
    (cycle maxWatt startMono delay ⟨some v, some a, outOn, typ, vl, al⟩ tNow
        st).st.whSum = st.whSum + v * a * (tNow - st.nowMono) / 3600 := by
  refine ⟨?_, fun hneg => ?_, fun hpos => ?_, ?_⟩
  · simp only [cycle]
    split_ifs <;> rfl
  · simp only [cycle]
    split_ifs <;> simp_all
  · simp only [cycle]
    split_ifs <;> simp_all
  · simp only [cycle]
    split_ifs <;> rfl

/-- Witness for C2 (amended) at a zero-voltage reading: the counter still
advances from 0 to 1 while the sums and gross energy stay put. -/
theorem claim_C2_witness :
    (cycle 50 0 1 ⟨some 0, some 2, false, "CV", some 15, some 5⟩ 1
        ⟨0, 0, 0, 0, 0, 0, none⟩).st.statCount = 0 + 1 ∧
    (¬((0 : ℚ) < 0 ∧ (0 : ℚ) < 2) →
      (cycle 50 0 1 ⟨some 0, some 2, false, "CV", some 15, some 5⟩ 1
          ⟨0, 0, 0, 0, 0, 0, none⟩).st.vSum = 0 ∧
      (cycle 50 0 1 ⟨some 0, some 2, false, "CV", some 15, some 5⟩ 1
          ⟨0, 0, 0, 0, 0, 0, none⟩).st.aSum = 0 ∧
      (cycle 50 0 1 ⟨some 0, some 2, false, "CV", some 15, some 5⟩ 1
          ⟨0, 0, 0, 0, 0, 0, none⟩).st.whGross = 0) ∧
    (((0 : ℚ) < 0 ∧ (0 : ℚ) < 2) →
      (cycle 50 0 1 ⟨some 0, some 2, false, "CV", some 15, some 5⟩ 1
          ⟨0, 0, 0, 0, 0, 0, none⟩).st.vSum = 0 + 0 ∧
      (cycle 50 0 1 ⟨some 0, some 2, false, "CV", some 15, some 5⟩ 1
          ⟨0, 0, 0, 0, 0, 0, none⟩).st.aSum = 0 + 2 ∧
      (cycle 50 0 1 ⟨some 0, some 2, false, "CV", some 15, some 5⟩ 1
          ⟨0, 0, 0, 0, 0, 0, none⟩).st.whGross = (0 + 0) / (((0 : ℕ) : ℚ) + 1) *
            ((0 + 2) / (((0 : ℕ) : ℚ) + 1)) * (1 - 0) / 3600) ∧
    (cycle 50 0 1 ⟨some 0, some 2, false, "CV", some 15, some 5⟩ 1
        ⟨0, 0, 0, 0, 0, 0, none⟩).st.whSum = 0 + 0 * 2 * (1 - 0) / 3600 :=
  claim_C2_statcount 50 0 1 0 2 1 false "CV" (some 15) (some 5)
    ⟨0, 0, 0, 0, 0, 0, none⟩

/-- C10: when the voltage or the current read fails (`None`), the iteration
hits `continue`: every accumulator and the staged limit are unchanged (only
the freshly taken monotonic timestamp remains), nothing is emitted, no limit
is written, and no sleep happens before the next attempt. -/
theorem claim_C10_skip (maxWatt startMono delay : ℚ) (r : Reading) (tNow : ℚ)
    (st : LoopState) (h : r.v = none ∨ r.a = none) :
    cycle maxWatt startMono delay r tNow st =
      { st := { st with nowMono := tNow }, emitted := none,
        writtenLimit := none, slept := none, raised := false } := by
  obtain ⟨rv, ra, ro, rt, rvl, ral⟩ := r
  rcases h with h | h
  · simp only at h
    subst h
    rfl
  · simp only at h
    subst h
    cases rv <;> rfl

/-- Witness for C10 at a failed voltage read. -/
theorem claim_C10_witness :
    cycle 50 0 1 ⟨none, some 3, true, "CC", none, none⟩ 1
        ⟨5, 1, 2, 3, 4, 7, some 9⟩ =
      { st := ⟨1, 1, 2, 3, 4, 7, some 9⟩, emitted := none,
        writtenLimit := none, slept := none, raised := false } :=
  claim_C10_skip 50 0 1 ⟨none, some 3, true, "CC", none, none⟩ 1
    ⟨5, 1, 2, 3, 4, 7, some 9⟩ (Or.inl rfl)

lemma qmod_add_int_mul (x b : ℚ) (k : ℤ) (hb : b ≠ 0) :
    qmod (x + b * k) b = qmod x b := by
  unfold qmod
  rw [add_div, mul_comm b (k : ℚ), mul_div_assoc, div_self hb, mul_one,
    Int.floor_add_int]
  push_cast
  ring

/-- C8 counterexample: with `delay = 1 s` and a cycle whose work takes 150 ms,
the sleep ending that very cycle is a full 1 s, not 850 ms: the sleep is
computed from `now_monotonic`, the timestamp taken at the TOP of the
iteration (before the work), which for cycle 0 sits exactly on the grid. -/
theorem claim_C8_counterexample :
    sleepOfCycle 1 (fun _ => 3 / 20) 0 = 1 ∧ (1 : ℚ) ≠ 17 / 20 := by
  constructor
  · show (1 : ℚ) - qmod (cycleStart 1 (fun _ => 3 / 20) 0) 1 = 1
    norm_num [cycleStart, qmod]
  · norm_num

/-- C8 (amended): the sleep ending cycle `n` is
`delay − (elapsed-at-cycle-start mod delay)` where elapsed is taken before
the cycle's work; consequently (with exact sleeps) a cycle's own work does
not shorten its own sleep, but shifts the NEXT cycle's start off the grid, so
the sleep ending cycle `n + 1` equals `delay − (works n mod delay)` — for
150 ms of work and a 1000 ms delay, the following cycle's sleep is 850 ms. -/
theorem claim_C8_sleep (delay : ℚ) (works : ℕ → ℚ) (n : ℕ) (hd : 0 < delay) :
    sleepOfCycle delay works n =
      delay - qmod (cycleStart delay works n) delay ∧
    sleepOfCycle delay works (n + 1) = delay - qmod (works n) delay := by
  refine ⟨rfl, ?_⟩
  have hb : delay ≠ 0 := ne_of_gt hd
  show delay - qmod (cycleStart delay works (n + 1)) delay = _
  have hstep : cycleStart delay works (n + 1) =
      works n + delay * ((1 + ⌊cycleStart delay works n / delay⌋ : ℤ) : ℚ) := by
    show cycleStart delay works n + works n +
        (delay - qmod (cycleStart delay works n) delay) = _
    rw [qmod]
    push_cast
    ring
  rw [hstep, qmod_add_int_mul _ _ _ hb]

/-- Witness for C8 (amended): delay 1 s, every cycle's work 150 ms; the sleep
ending cycle 1 is `1 − qmod (3/20) 1 = 17/20 s = 850 ms`. -/
theorem claim_C8_witness :
    sleepOfCycle 1 (fun _ => 3 / 20) 1 = 1 - qmod (3 / 20) 1 ∧
    (1 : ℚ) - qmod (3 / 20) 1 = 17 / 20 := by
  constructor
  · exact (claim_C8_sleep 1 (fun _ => 3 / 20) 0 (by norm_num)).2
  · rw [qmod]
    norm_num

namespace DPM8600

/-- C4: for every read command with a nonempty operand list, the encoded frame
is `:` + the zero-padded 2-digit address + `r` + the 2-digit function code +
`=` + the comma-joined operands + one trailing comma + CRLF; it ends with the
terminator and carries exactly as many commas (hence operands) as supplied.
The same holds for the three write commands whose operand conversion
succeeds.  For `WRITE_VOLTAGE_AND_CURRENT_LIMIT` however the claim fails on
the code: operand conversion raises `AttributeError` before any frame is
built, so `_send` produces nothing (last conjunct). -/
theorem claim_C4_frame (addr : ℕ) (haddr : addr < 100) :
    (∀ (rf : ReadFunction) (ops : List ℤ), ops ≠ [] →
      sendRead addr rf ops =
        ":" ++ pyFormat02 addr ++ String.mk ['r'] ++ pyFormat02 rf.value ++
          "=" ++ joinComma (ops.map Int.repr) ++ "," ++ END ∧
      (pyFormat02 addr).length = 2 ∧ (pyFormat02 rf.value).length = 2 ∧
      pyEndsWith (sendRead addr rf ops) END = true ∧
      commaCount (sendRead addr rf ops) = ops.length) ∧
    (∀ (wf : WriteFunction) (ops : List ℚ) (l : List PyVal), ops ≠ [] →
      convertAll wf ops = some l →
      sendWrite addr wf ops =
        some (":" ++ pyFormat02 addr ++ String.mk ['w'] ++ pyFormat02 wf.value ++
          "=" ++ joinComma (l.map pyvalStr) ++ "," ++ END) ∧
      (pyFormat02 wf.value).length = 2 ∧
      pyEndsWith (encodeFrame addr 'w' wf.value (l.map pyvalStr)) END = true ∧
      commaCount (encodeFrame addr 'w' wf.value (l.map pyvalStr)) = ops.length) ∧
    (∀ (v a : ℚ) (rest : List ℚ),
      sendWrite addr .WRITE_VOLTAGE_AND_CURRENT_LIMIT (v :: a :: rest) = none) := by
  refine ⟨fun rf ops hne => ?_, fun wf ops l hne hconv => ?_, fun v a rest => rfl⟩
  · have hmapne : ops.map Int.repr ≠ [] := by
      simpa using hne
    have hfree : ∀ s ∈ ops.map Int.repr, commaCount s = 0 := by
      intro s hs
      rcases List.mem_map.mp hs with ⟨n, -, rfl⟩
      exact intRepr_comma_free n
    refine ⟨rfl, (pyFormat02_two_digit addr haddr).1,
      (pyFormat02_two_digit rf.value (readValue_lt_100 rf)).1,
      endsWith_encodeFrame addr rf.value 'r' (ops.map Int.repr), ?_⟩
    have := commaCount_encodeFrame addr rf.value 'r' (ops.map Int.repr) haddr
      (readValue_lt_100 rf) hmapne hfree (by decide)
    simpa [sendRead] using this
  · have hmapne : l.map pyvalStr ≠ [] := by
      have hl : l ≠ [] := by
        intro h0
        apply hne
        have := convertAll_length wf ops l hconv
        rw [h0] at this
        exact List.length_eq_zero.mp this.symm
      simpa using hl
    have hlen : (l.map pyvalStr).length = ops.length := by
      simp [convertAll_length wf ops l hconv]
    refine ⟨?_, (pyFormat02_two_digit wf.value (writeValue_lt_100 wf)).1,
      endsWith_encodeFrame addr wf.value 'w' (l.map pyvalStr), ?_⟩
    · simp [sendWrite, hconv, encodeFrame]
    · rw [commaCount_encodeFrame addr wf.value 'w' (l.map pyvalStr) haddr
        (writeValue_lt_100 wf) hmapne (convertAll_comma_free wf ops l hconv)
        (by decide)]
      exact hlen

/-- Witness for C4: a concrete read frame (address 1, output-voltage read,
one operand) has the terminator and one comma-terminated operand, and the
combined voltage-and-current write produces no frame at `v = 14.5`, `a = 3`. -/
theorem claim_C4_witness :
    pyEndsWith (sendRead 1 .READ_OUTPUT_VOLTAGE [0]) END = true ∧
    commaCount (sendRead 1 .READ_OUTPUT_VOLTAGE [0]) = 1 ∧
    sendWrite 1 .WRITE_VOLTAGE_AND_CURRENT_LIMIT [29 / 2, 3] = none := by
  have h := claim_C4_frame 1 (by norm_num)
  have hr := h.1 .READ_OUTPUT_VOLTAGE [0] (by simp)
  exact ⟨hr.2.2.2.1, by simpa using hr.2.2.2.2, h.2.2 (29 / 2) 3 []⟩

end DPM8600

end Monitor
